import Mathlib

/-!
Verification development for the goskills skill-driven agent runtime.

The definitions below are a shallow embedding of the Go sources:
  * `runner.go` (agent loop, tool dispatch, skill selection),
  * `tool_generator.go` and `tool/definitions.go` (tool catalog assembly),
  * the MCP client (`CallTool`, `parseToolName`, `isConnectionError`).

External effects (the LLM, stdin, child processes, MCP transports) are
modelled as explicit oracles; all embedded control flow, message
construction and string manipulation follows the Go code.  Strings are
Lean `String`s; Go byte/rune distinctions are immaterial for the
properties proved here (ASCII case folding is used, matching the inputs
that occur in the claims).
-/

set_option maxRecDepth 8192

namespace GoSkills

/-! ## String helpers mirroring Go's strings package -/

/-- Does the list `pre` occur as the initial segment of `s`?
Mirrors the prefix test used by Go's strings.HasPrefix. -/
def startsWithL : List Char → List Char → Bool
  | [], _ => true
  | _ :: _, [] => false
  | p :: ps, c :: cs => p == c && startsWithL ps cs

/-- Does `sub` occur as a contiguous substring of `s`?
Mirrors Go's strings.Contains. -/
def containsSubL (s sub : List Char) : Bool :=
  if startsWithL sub s then true
  else
    match s with
    | [] => false
    | _ :: rest => containsSubL rest sub

/-- strings.Contains on Lean strings. -/
def stringsContains (s sub : String) : Bool :=
  containsSubL s.data sub.data

/-- strings.HasSuffix on Lean strings. -/
def stringsHasSuffix (s suffix : String) : Bool :=
  startsWithL suffix.data.reverse s.data.reverse

/-- ASCII lowering of one character, as done by strings.ToLower for
ASCII input (the only inputs relevant to the claims). -/
def toLowerGo (s : String) : String :=
  ⟨s.data.map Char.toLower⟩

/-- strings.TrimSpace restricted to ASCII whitespace. -/
def trimSpaceGo (s : String) : String :=
  ⟨((s.data.dropWhile Char.isWhitespace).reverse.dropWhile Char.isWhitespace).reverse⟩

/-- strings.Trim with an explicit cutset. -/
def trimCutset (s : String) (cutset : List Char) : String :=
  ⟨((s.data.dropWhile (cutset.contains ·)).reverse.dropWhile (cutset.contains ·)).reverse⟩

/-- strings.EqualFold for ASCII input. -/
def equalFoldGo (a b : String) : Bool :=
  toLowerGo a == toLowerGo b

/-- Go's strings.Split specialised to the separator "__": splits around
every non-overlapping leftmost occurrence of two underscores. -/
def splitDunder : List Char → List (List Char)
  | '_' :: '_' :: rest => [] :: splitDunder rest
  | c :: rest =>
    match splitDunder rest with
    | p :: ps => (c :: p) :: ps
    | [] => [[c]]
  | [] => [[]]

/-- filepath.Ext: the suffix of the final slash-separated element
beginning at its final dot (empty when that element has no dot).
Implemented by scanning the reversed character list. -/
def extRev : List Char → List Char → Option (List Char)
  | [], _ => none
  | '/' :: _, _ => none
  | '.' :: _, acc => some ('.' :: acc)
  | c :: rest, acc => extRev rest (c :: acc)

/-- filepath.Ext on Lean strings. -/
def filepathExt (p : String) : String :=
  match extRev p.data.reverse [] with
  | some e => ⟨e⟩
  | none => ""

/-- filepath.Join for the already-clean paths appearing in this
development (no trailing slashes, no dot segments). -/
def filepathJoin (a b : String) : String :=
  a ++ "/" ++ b

/-! ## Data model (spec section 3, shapes taken from runner.go and the
repository's tests) -/

/-- One property of a JSON-schema-shaped parameters object. -/
structure PropSpec where
  type : String
  description : String := ""
  itemsType : Option String := none
deriving DecidableEq, Repr

/-- The parameters schema attached to a tool definition. -/
structure ParamsSchema where
  type : String := "object"
  properties : List (String × PropSpec) := []
  required : List String := []
deriving DecidableEq, Repr

/-- openai.FunctionDefinition. -/
structure FunctionDefinition where
  name : String
  description : String
  parameters : ParamsSchema
deriving DecidableEq, Repr

/-- openai.Tool (the Type field is always "function"). -/
structure Tool where
  function : FunctionDefinition
deriving DecidableEq, Repr

/-- SkillMeta from the skill package model. -/
structure SkillMeta where
  name : String := ""
  description : String := ""
  allowedTools : List String := []
  model : String := ""
deriving DecidableEq, Repr

/-- SkillResources: ordered relative paths below the skill root. -/
structure SkillResources where
  scripts : List String := []
  references : List String := []
  assets : List String := []
deriving DecidableEq, Repr

/-- SkillPackage. -/
structure SkillPackage where
  path : String := ""
  meta : SkillMeta := {}
  body : String := ""
  resources : SkillResources := {}
deriving DecidableEq, Repr

/-- RunnerConfig (the fields consulted by the embedded code paths). -/
structure RunnerConfig where
  model : String := ""
  skillName : String := ""
  autoApproveTools : Bool := true
deriving DecidableEq, Repr

/-! ## Base tools (tool/definitions.go, GetBaseTools) -/

/-- The schema shared by run_shell_script and run_python_script. -/
def scriptPathSchema (what : String) : ParamsSchema :=
  { type := "object"
    properties :=
      [("scriptPath",
        { type := "string"
          description := "The path to the " ++ what ++ " script to execute." }),
       ("args",
        { type := "array"
          description := "A list of string arguments to pass to the script."
          itemsType := some "string" })]
    required := ["scriptPath"] }

/-- GetBaseTools: the fixed list of built-in tool definitions. -/
def GetBaseTools : List Tool :=
  [{ function :=
      { name := "run_shell_script"
        description := "Executes a shell script and returns its combined stdout and stderr. Use this for general shell commands."
        parameters := scriptPathSchema "shell" } },
   { function :=
      { name := "run_python_script"
        description := "Executes a Python script and returns its combined stdout and stderr."
        parameters := scriptPathSchema "Python" } },
   { function :=
      { name := "read_file"
        description := "Reads the content of a file and returns it as a string."
        parameters :=
          { type := "object"
            properties :=
              [("filePath",
                { type := "string"
                  description := "The path to the file to read." })]
            required := ["filePath"] } } },
   { function :=
      { name := "write_file"
        description := "Writes the given content to a file. If the file does not exist, it will be created. If it exists, its content will be truncated."
        parameters :=
          { type := "object"
            properties :=
              [("filePath",
                { type := "string"
                  description := "The path to the file to write." }),
               ("content",
                { type := "string"
                  description := "The content to write to the file." })]
            required := ["filePath", "content"] } } },
   { function :=
      { name := "duckduckgo_search"
        description := "Performs a DuckDuckGo search for the given query and returns a summary or related topics."
        parameters :=
          { type := "object"
            properties :=
              [("query",
                { type := "string"
                  description := "The search query." })]
            required := ["query"] } } },
   { function :=
      { name := "wikipedia_search"
        description := "Performs a search on Wikipedia for the given query and returns a summary of the relevant entry."
        parameters :=
          { type := "object"
            properties :=
              [("query",
                { type := "string"
                  description := "The search query for Wikipedia." })]
            required := ["query"] } } }]

/-! ## Script tool generation (tool_generator.go) -/

/-- The rune filter inside generateScriptTool: keep [a-z], [A-Z] and
[0-9]; replace every other rune with an underscore. -/
def safeNameChar (r : Char) : Char :=
  if ('a' ≤ r && r ≤ 'z') || ('A' ≤ r && r ≤ 'Z') || ('0' ≤ r && r ≤ '9') then r
  else '_'

/-- generateScriptTool: builds the tool definition and the tool name for
one script relative path. -/
def generateScriptTool (scriptRelPath : String) : Tool × String :=
  let safeName : String := ⟨scriptRelPath.data.map safeNameChar⟩
  let toolName := "run_" ++ safeName
  let ext := filepathExt scriptRelPath
  let description :=
    if ext == ".py" then
      "Executes the python script '" ++ scriptRelPath ++ "'."
    else
      "Executes the shell script '" ++ scriptRelPath ++ "'."
  ({ function :=
      { name := toolName
        description := description
        parameters :=
          { type := "object"
            properties :=
              [("args",
                { type := "array"
                  description := "Arguments to pass to the script."
                  itemsType := some "string" })] } } },
   toolName)

/-- Go-map insertion on an association list: replace the entry with the
same key when present, otherwise append. -/
def mapInsert (m : List (String × String)) (k v : String) : List (String × String) :=
  if m.any (fun p => p.1 == k) then
    m.map (fun p => if p.1 == k then (k, v) else p)
  else
    m ++ [(k, v)]

/-- The script-tool loop of GenerateToolDefinitions: append one tool per
entry of resources.scripts and record its absolute path. -/
def scriptToolLoop (skillPath : String) :
    List String → List Tool → List (String × String) → List Tool × List (String × String)
  | [], tools, scriptMap => (tools, scriptMap)
  | rel :: rest, tools, scriptMap =>
    let tn := generateScriptTool rel
    scriptToolLoop skillPath rest (tools ++ [tn.1]) (mapInsert scriptMap tn.2 (filepathJoin skillPath rel))

/-- The base-tool filter of GenerateToolDefinitions: when allowed_tools
is non-empty keep only the base tools whose name is in the allowed set,
otherwise keep all of them. -/
def filterBaseLoop (allowed : List String) : List Tool → List Tool → List Tool
  | [], acc => acc
  | t :: rest, acc =>
    if allowed.contains t.function.name then
      filterBaseLoop allowed rest (acc ++ [t])
    else
      filterBaseLoop allowed rest acc

/-- GenerateToolDefinitions (tool_generator.go): the per-skill tool
definitions (filtered base tools, then script tools) together with the
script dispatch map. -/
def GenerateToolDefinitions (skill : SkillPackage) : List Tool × List (String × String) :=
  let tools : List Tool :=
    if skill.meta.allowedTools.length > 0 then
      filterBaseLoop skill.meta.allowedTools GetBaseTools []
    else
      GetBaseTools
  scriptToolLoop skill.path skill.resources.scripts tools []

/-- The merged tool catalog assembled in continueSkillWithTools
(runner.go lines 351-363): the GenerateToolDefinitions tools, then the
base tools appended a second time, then MCP tools when an MCP client is
configured and its GetTools call succeeded. -/
def mergedAvailableTools (skill : SkillPackage) (mcpTools : Option (Except String (List Tool))) : List Tool :=
  let tools := (GenerateToolDefinitions skill).1 ++ GetBaseTools
  match mcpTools with
  | none => tools
  | some (.error _) => tools
  | some (.ok ts) => tools ++ ts

/-- The names exposed by a tool list. -/
def toolNames (ts : List Tool) : List String :=
  ts.map (fun t => t.function.name)

/-! ## Conversation messages -/

/-- Message roles (openai chat roles). -/
inductive Role where
  | system
  | user
  | assistant
  | tool
deriving DecidableEq, Repr

/-- One tool call emitted by the model (id, function name, raw JSON
argument string). -/
structure ToolCall where
  id : String
  name : String
  args : String
deriving DecidableEq, Repr

/-- openai.ChatCompletionMessage as used by the runner. -/
structure ChatMessage where
  role : Role
  content : String
  toolCalls : List ToolCall := []
  toolCallID : String := ""
deriving DecidableEq, Repr

/-- A tool-role reply correlated to a tool call. -/
def toolMsg (id content : String) : ChatMessage :=
  { role := .tool, content := content, toolCallID := id }

/-! ## Tool dispatch (runner.go, executeToolCall)

The external tool implementations (shell, python, file IO, web) are
oracles.  Each oracle receives the raw JSON argument string and reports
either success, a JSON-unmarshal failure, or an execution failure; the
embedded executeToolCall reproduces the Go function's branch structure
and error wrapping around those outcomes. -/

/-- The outcome of running one external tool implementation on a raw
argument string. -/
inductive ToolOutcome where
  | ok (out : String)
  | unmarshalErr (m : String)
  | execErr (m : String)
deriving DecidableEq, Repr

/-- Oracles for the built-in tool implementations and skill scripts.
readFile receives the skill path as well because the Go code resolves
relative paths against the skill root before calling tool.ReadFile. -/
structure ToolEnv where
  runShellCode : String → ToolOutcome
  runShellScript : String → ToolOutcome
  runPythonCode : String → ToolOutcome
  runPythonScript : String → ToolOutcome
  readFile : String → String → ToolOutcome
  writeFile : String → ToolOutcome
  wikipediaSearch : String → ToolOutcome
  tavilySearch : String → ToolOutcome
  webFetch : String → ToolOutcome
  runScript : Bool → String → String → ToolOutcome

/-- Error wrapping at the end of executeToolCall: unmarshal failures are
returned directly with the per-branch message; execution failures are
wrapped as "tool execution failed for name". -/
def wrapOutcome (tcName argKind : String) : ToolOutcome → Except String String
  | .ok out => .ok out
  | .unmarshalErr m => .error ("failed to unmarshal " ++ argKind ++ " arguments: " ++ m)
  | .execErr m => .error ("tool execution failed for " ++ tcName ++ ": " ++ m)

/-- executeToolCall: dispatch one tool call against the built-in switch,
falling back to the skill-script map and then to the unknown-tool
error.  Note the switch has no case for duckduckgo_search. -/
def executeToolCall (env : ToolEnv) (tc : ToolCall)
    (scriptMap : List (String × String)) (skillPath : String) : Except String String :=
  if tc.name == "run_shell_code" then
    wrapOutcome tc.name tc.name (env.runShellCode tc.args)
  else if tc.name == "run_shell_script" then
    wrapOutcome tc.name tc.name (env.runShellScript tc.args)
  else if tc.name == "run_python_code" then
    wrapOutcome tc.name tc.name (env.runPythonCode tc.args)
  else if tc.name == "run_python_script" then
    wrapOutcome tc.name tc.name (env.runPythonScript tc.args)
  else if tc.name == "read_file" then
    wrapOutcome tc.name tc.name (env.readFile tc.args skillPath)
  else if tc.name == "write_file" then
    wrapOutcome tc.name tc.name (env.writeFile tc.args)
  else if tc.name == "wikipedia_search" then
    wrapOutcome tc.name tc.name (env.wikipediaSearch tc.args)
  else if tc.name == "tavily_search" then
    wrapOutcome tc.name tc.name (env.tavilySearch tc.args)
  else if tc.name == "web_fetch" then
    wrapOutcome tc.name tc.name (env.webFetch tc.args)
  else
    match scriptMap.find? (fun p => p.1 == tc.name) with
    | some p =>
      wrapOutcome tc.name "script" (env.runScript (stringsHasSuffix p.2 ".py") p.2 tc.args)
    | none => .error ("unknown tool: " ++ tc.name)

/-! ## The bounded tool-use loop (runner.go, continueSkillWithTools) -/

/-- The outcome of one MCP CallTool invocation as seen by the loop:
a JSON-unmarshal failure of the arguments (which the Go code reports as
a normal tool output, not an error), a marshalled success result, or a
CallTool error. -/
inductive McpCallOutcome where
  | unmarshalErr (m : String)
  | ok (marshalled : String)
  | err (m : String)
deriving DecidableEq, Repr

/-- Oracles for the agent loop: the chat-completion client, the stdin
reads of the approval gate (none models a Scanln error), the tool
implementations and the MCP client. -/
structure LoopEnv where
  llm : List ChatMessage → List Tool → Except String ChatMessage
  scan : Nat → Option String
  tools : ToolEnv
  mcpPresent : Bool
  mcpGetTools : Except String (List Tool)
  mcpCall : ToolCall → McpCallOutcome

/-- The recovery guidance appended to every dispatch-failure message. -/
def toolRecoveryGuidance : String :=
  "\n\nYou can try:\n1. Retry with different parameters\n2. Use a different tool to fix it\n3. Modify your approach"

/-- The structured error message appended when a dispatched tool call
fails (runner.go lines 442-443). -/
def mkToolErrorMsg (name args errDetails : String) : String :=
  "Tool execution failed: " ++ name ++
  "\nError details: " ++ errDetails ++
  "\nTool name: " ++ name ++
  "\nArguments: " ++ args ++
  toolRecoveryGuidance

/-- The dispatch step for one approved tool call: MCP route when an MCP
client is present and the name contains a double underscore, otherwise
the built-in/script switch. -/
def dispatchToolCall (env : LoopEnv) (tc : ToolCall)
    (scriptMap : List (String × String)) (skillPath : String) : Except String String :=
  if env.mcpPresent && stringsContains tc.name "__" then
    match env.mcpCall tc with
    | .unmarshalErr m => .ok ("Error unmarshalling arguments: " ++ m)
    | .ok s => .ok s
    | .err m => .error m
  else
    executeToolCall env.tools tc scriptMap skillPath

/-- Processing of a single tool call from an assistant message: the
approval gate (when auto-approve is off), then dispatch; returns the
tool-role messages appended for this call, the new stdin read counter,
and whether the call was actually dispatched. -/
def handleToolCall (env : LoopEnv) (cfg : RunnerConfig)
    (scriptMap : List (String × String)) (skillPath : String)
    (tc : ToolCall) (sc : Nat) : List ChatMessage × Nat × Bool :=
  let dispatchPart : Nat → List ChatMessage × Nat × Bool := fun sc' =>
    match dispatchToolCall env tc scriptMap skillPath with
    | .ok out => ([toolMsg tc.id out], sc', true)
    | .error e => ([toolMsg tc.id (mkToolErrorMsg tc.name tc.args e)], sc', true)
  if !cfg.autoApproveTools then
    match env.scan sc with
    | none => ([toolMsg tc.id "Error: Input scanning failed."], sc + 1, false)
    | some input =>
      if toLowerGo (trimSpaceGo input) != "y" then
        ([toolMsg tc.id "Error: User denied tool execution."], sc + 1, false)
      else
        dispatchPart (sc + 1)
  else
    dispatchPart sc

/-- Sequential processing of the tool calls of one assistant message,
in the order the model supplied them; also returns the ids of the calls
whose dispatch actually ran. -/
def processToolCalls (env : LoopEnv) (cfg : RunnerConfig)
    (scriptMap : List (String × String)) (skillPath : String) :
    List ToolCall → Nat → List ChatMessage × Nat × List String
  | [], sc => ([], sc, [])
  | tc :: rest, sc =>
    let r := handleToolCall env cfg scriptMap skillPath tc sc
    let rs := processToolCalls env cfg scriptMap skillPath rest r.2.1
    (r.1 ++ rs.1, rs.2.1, (if r.2.2 then [tc.id] else []) ++ rs.2.2)

/-- Errors terminating a run of the loop. -/
inductive RunErr where
  | chatError (e : String)
  | iterationLimit
deriving DecidableEq, Repr

/-- The error strings produced by continueSkillWithTools. -/
def RunErr.message : RunErr → String
  | .chatError e => "ChatCompletion error: " ++ e
  | .iterationLimit => "exceeded maximum tool call iterations"

/-- The observable outcome of the loop: the result, the final message
history, the number of chat-completion calls issued, the final stdin
read counter, and the ids of all dispatched tool calls. -/
structure LoopOut where
  result : Except RunErr String
  messages : List ChatMessage
  llmCalls : Nat
  scanCount : Nat
  dispatched : List String
deriving Repr

/-- The iteration loop of continueSkillWithTools ("for range 20"): each
iteration issues one chat-completion request, appends the reply, and
either returns its content (no tool calls) or processes the tool-call
batch; the zero-fuel case is the iteration-limit error.  A reply whose
ToolCalls slice is nil in Go is modelled as an empty list. -/
def toolLoop (env : LoopEnv) (cfg : RunnerConfig)
    (scriptMap : List (String × String)) (skillPath : String)
    (availableTools : List Tool) :
    Nat → List ChatMessage → Nat → Nat → List String → LoopOut
  | 0, msgs, sc, calls, ids =>
    ⟨.error .iterationLimit, msgs, calls, sc, ids⟩
  | fuel + 1, msgs, sc, calls, ids =>
    match env.llm msgs availableTools with
    | .error e => ⟨.error (.chatError e), msgs, calls + 1, sc, ids⟩
    | .ok m =>
      let msgs' := msgs ++ [m]
      if m.toolCalls.isEmpty then
        ⟨.ok m.content, msgs', calls + 1, sc, ids⟩
      else
        let pr := processToolCalls env cfg scriptMap skillPath m.toolCalls sc
        toolLoop env cfg scriptMap skillPath availableTools fuel
          (msgs' ++ pr.1) pr.2.1 (calls + 1) (ids ++ pr.2.2)

/-- continueSkillWithTools: push the user prompt, assemble the merged
tool catalog, and run at most 20 iterations. -/
def continueSkillWithTools (env : LoopEnv) (cfg : RunnerConfig)
    (skill : SkillPackage) (userPrompt : String) (msgs0 : List ChatMessage) : LoopOut :=
  let msgs := msgs0 ++ [{ role := .user, content := userPrompt }]
  let gen := GenerateToolDefinitions skill
  let availableTools :=
    mergedAvailableTools skill (if env.mcpPresent then some env.mcpGetTools else none)
  toolLoop env cfg gen.2 skill.path availableTools 20 msgs 0 0 []

/-- The system message composed once a skill is chosen
(executeSkillWithTools, runner.go lines 331-339). -/
def skillSystemContent (skill : SkillPackage) : String :=
  skill.body ++
  "\n\n##如果SKILL中没有要调用脚本的必要，则不要调用Tool,尤其是run_shell_script工具，直接根据SKILL的描述直接生成答案。\n\n ## SKILL CONTEXT\n" ++
  "Skill Root Path: " ++ skill.path ++ "\n"

/-- executeSkillWithTools: append the single system message, then run
the tool-use conversation. -/
def executeSkillWithTools (env : LoopEnv) (cfg : RunnerConfig)
    (skill : SkillPackage) (userPrompt : String) (msgs0 : List ChatMessage) : LoopOut :=
  continueSkillWithTools env cfg skill userPrompt
    (msgs0 ++ [{ role := .system, content := skillSystemContent skill }])

/-- The interactive loop of RunLoop (runner.go lines 95-120).  After
each round the runtime reads one stdin line: breaking on an
"N"-equivalent line, prompting for a new prompt on a "y"-equivalent
line, and otherwise taking the line itself as the next prompt.  Each
round calls continueSkillWithTools directly; the returned value is the
final message history.  Fuel bounds the number of rounds observed. -/
def runLoopRounds (env : LoopEnv) (cfg : RunnerConfig) (skill : SkillPackage)
    (stdin : Nat → String) :
    Nat → String → List ChatMessage → Nat → List ChatMessage
  | 0, _, msgs, _ => msgs
  | fuel + 1, prompt, msgs, k =>
    let out := continueSkillWithTools env cfg skill prompt msgs
    let answer := trimSpaceGo (stdin k)
    if equalFoldGo answer "N" then out.messages
    else if equalFoldGo answer "y" then
      runLoopRounds env cfg skill stdin fuel (trimSpaceGo (stdin (k + 1))) out.messages (k + 2)
    else
      runLoopRounds env cfg skill stdin fuel answer out.messages (k + 1)

/-- The message history produced by a RunLoop session started on a fresh
agent (the agent's history is empty after skill selection, which uses a
separate temporary history). -/
def runLoopMessages (env : LoopEnv) (cfg : RunnerConfig) (skill : SkillPackage)
    (stdin : Nat → String) (fuel : Nat) (initialPrompt : String) : List ChatMessage :=
  runLoopRounds env cfg skill stdin fuel initialPrompt [] 0

/-- The message history produced by a single-shot Run on a fresh agent:
skill selection (separate temporary history), then executeSkillWithTools. -/
def runMessages (env : LoopEnv) (cfg : RunnerConfig) (skill : SkillPackage)
    (userPrompt : String) : LoopOut :=
  executeSkillWithTools env cfg skill userPrompt []

/-! ## Skill-name extraction (runner.go, extractSkillName / selectSkill)

The Go code iterates over a map from skill names to packages; the map is
modelled as the list of its keys in iteration order. -/

/-- The range-for of extractSkillName: the first skill name that occurs
case-insensitively inside the content. -/
def findSkillNameLoop (lowerContent : String) : List String → Option String
  | [] => none
  | k :: rest =>
    if stringsContains lowerContent (toLowerGo k) then some k
    else findSkillNameLoop lowerContent rest

/-- extractSkillName: exact map membership first, then the
case-insensitive substring scan, otherwise the content itself. -/
def extractSkillName (content : String) (skills : List String) : String :=
  if skills.contains content then content
  else
    match findSkillNameLoop (toLowerGo content) skills with
    | some k => k
    | none => content

/-- The trimming selectSkill applies to the reply content before
extraction: TrimSpace, then trimming quote characters. -/
def selectSkillContent (raw : String) : String :=
  trimCutset (trimSpaceGo raw) ['\'', '\"']

/-- The skill name selectSkill derives from a reply. -/
def selectedSkillName (raw : String) (skills : List String) : String :=
  extractSkillName (selectSkillContent raw) skills

/-! ## MCP client (mcp package: parseToolName, isConnectionError,
NewClient, CallTool) -/

/-- parseToolName: split the name on "__" (every occurrence, as Go's
strings.Split does) and fail unless exactly two parts result. -/
def parseToolName (name : String) : Except String (String × String) :=
  match splitDunder name.data with
  | [s, t] => .ok (⟨s⟩, ⟨t⟩)
  | _ => .error ("invalid tool name format: " ++ name)

/-- isConnectionError: message-based classification of connection
failures. -/
def isConnectionError (errMsg : String) : Bool :=
  stringsContains errMsg "connection closed" ||
  stringsContains errMsg "EOF" ||
  stringsContains errMsg "broken pipe" ||
  stringsContains errMsg "connection reset"

/-- The retry count NewClient stores: the configured MaxRetries, or 3
when that value is not positive. -/
def effectiveMaxRetries (configured : Int) : Nat :=
  if configured ≤ 0 then 3 else configured.toNat

/-- The errors CallTool can produce, keeping the Go format strings. -/
inductive CallErr where
  | badName (name : String)
  | serverNotInConfig (server : String)
  | sessionNotFound (server : String)
  | callFailed (e : String)
  | afterRetries (n : Nat)
deriving DecidableEq, Repr

/-- The rendered text of each CallTool error. -/
def CallErr.message : CallErr → String
  | .badName n => "invalid tool name format: " ++ n
  | .serverNotInConfig s => "server " ++ s ++ " not found in config"
  | .sessionNotFound s => "server " ++ s ++ " session not found"
  | .callFailed e => "failed to call tool: " ++ e
  | .afterRetries n => "failed to call tool after " ++ toString n ++ " retries"

/-- The per-attempt oracle of one server session: the outcome of the
i-th session.CallTool attempt.  Reconnection only swaps the session
object (and logs); the attempt oracle absorbs which session the attempt
hits. -/
structure CallEnv where
  attempt : Nat → Except String String

/-- The observable outcome of one CallTool invocation: the result, the
number of session call attempts made, the backoff waits (in seconds)
performed before each reconnect, the number of session closes, the
number of reconnect attempts, and the resolved (server, remote tool)
pair when dispatch reached a session. -/
structure CallOut where
  result : Except CallErr String
  attemptsMade : Nat
  waits : List Nat
  closes : Nat
  reconnects : Nat
  remote : Option (String × String)
deriving Repr

/-- The retry loop of CallTool ("for i := 0; i < maxRetries; i++").
`rem` is structural fuel maintained as maxRetries - i.  On a connection
error the session is closed; before the last attempt the code then
waits (i+1) seconds, attempts a reconnect and retries, while on the
last attempt it falls through to the plain wrapped error.  The
loop-exhaustion return ("failed to call tool after n retries") is kept
for fidelity. -/
def callLoop (env : CallEnv) (maxRetries : Nat) (server remoteName : String)
    (hasSession : Bool) :
    Nat → Nat → List Nat → Nat → Nat → CallOut
  | 0, i, waits, closes, recons =>
    ⟨.error (.afterRetries maxRetries), i, waits, closes, recons, some (server, remoteName)⟩
  | rem + 1, i, waits, closes, recons =>
    if !hasSession then
      ⟨.error (.sessionNotFound server), i, waits, closes, recons, none⟩
    else
      match env.attempt i with
      | .ok r => ⟨.ok r, i + 1, waits, closes, recons, some (server, remoteName)⟩
      | .error e =>
        if isConnectionError e then
          -- close the old session
          if i < maxRetries - 1 then
            callLoop env maxRetries server remoteName hasSession
              rem (i + 1) (waits ++ [i + 1]) (closes + 1) (recons + 1)
          else
            ⟨.error (.callFailed e), i + 1, waits, closes + 1, recons, some (server, remoteName)⟩
        else
          ⟨.error (.callFailed e), i + 1, waits, closes, recons, some (server, remoteName)⟩

/-- CallTool: parse the namespaced name, check the server is configured,
then run the retry loop against its session.  `servers` is the list of
configured server names; `hasSession` tells whether the handshake at
startup left an open session for that server. -/
def CallTool (env : CallEnv) (servers : List String) (maxRetries : Nat)
    (hasSession : Bool) (name : String) : CallOut :=
  match parseToolName name with
  | .error _ => ⟨.error (.badName name), 0, [], 0, 0, none⟩
  | .ok st =>
    if !servers.contains st.1 then
      ⟨.error (.serverNotInConfig st.1), 0, [], 0, 0, none⟩
    else
      callLoop env maxRetries st.1 st.2 hasSession maxRetries 0 [] 0 0

/-- The index of the first occurrence of "__" in a character list. -/
def dunderIdx : List Char → Option Nat
  | '_' :: '_' :: _ => some 0
  | _ :: rest => (dunderIdx rest).map (· + 1)
  | [] => none

/-- The spec's reading of tool-name parsing: split the name on "__"
exactly once, at the first occurrence.  Second definition kept for the
comparison with the source's parseToolName; it follows the spec's
words, not the code. -/
def splitOnceSpec (name : String) : List String :=
  match dunderIdx name.data with
  | some k => [⟨name.data.take k⟩, ⟨name.data.drop (k + 2)⟩]
  | none => [name]

/-! ## General lemmas about the string helpers -/

theorem startsWithL_iff (p : List Char) : ∀ s, startsWithL p s = true ↔ p <+: s := by
  induction p with
  | nil =>
    intro s
    rw [startsWithL]
    exact iff_of_true rfl List.nil_prefix
  | cons a ps ih =>
    intro s
    cases s with
    | nil =>
      rw [startsWithL]
      exact iff_of_false (by simp) (by simp)
    | cons c cs =>
      rw [startsWithL]
      rw [List.cons_prefix_cons]
      rw [Bool.and_eq_true, beq_iff_eq]
      exact and_congr Iff.rfl (ih cs)

theorem containsSubL_iff (s sub : List Char) : containsSubL s sub = true ↔ sub <:+: s := by
  induction s with
  | nil =>
    cases sub with
    | nil => simp [containsSubL, startsWithL]
    | cons a as => simp [containsSubL, startsWithL]
  | cons c rest ih =>
    rw [containsSubL]
    split
    next h =>
      exact iff_of_true rfl ((startsWithL_iff sub (c :: rest)).mp h).isInfix
    next h =>
      rw [ih, List.infix_cons_iff]
      constructor
      · exact Or.inr
      · rintro (hp | hi)
        · exact absurd ((startsWithL_iff sub (c :: rest)).mpr hp) h
        · exact hi

theorem stringsContains_iff (s sub : String) :
    stringsContains s sub = true ↔ sub.data <:+: s.data := by
  unfold stringsContains
  exact containsSubL_iff s.data sub.data

theorem stringsContains_of_append (a b c : String) :
    stringsContains (a ++ b ++ c) b = true := by
  rw [stringsContains_iff]
  simp only [String.data_append]
  exact List.infix_append a.data b.data c.data

/-! ## Concrete fixtures used by counterexamples and witnesses -/

/-- A tool environment in which every external tool implementation
succeeds with output "ok". -/
def okToolEnv : ToolEnv :=
  { runShellCode := fun _ => .ok "ok"
    runShellScript := fun _ => .ok "ok"
    runPythonCode := fun _ => .ok "ok"
    runPythonScript := fun _ => .ok "ok"
    readFile := fun _ _ => .ok "ok"
    writeFile := fun _ => .ok "ok"
    wikipediaSearch := fun _ => .ok "ok"
    tavilySearch := fun _ => .ok "ok"
    webFetch := fun _ => .ok "ok"
    runScript := fun _ _ _ => .ok "ok" }

/-- A skill with no allowed-tools restriction and no scripts. -/
def plainSkill : SkillPackage :=
  { path := "/s", meta := { name := "test", description := "d" }, body := "B" }

/-- The skill of spec scenario S4: allowed_tools restricted to read_file
and write_file, one script deploy.sh. -/
def s4Skill : SkillPackage :=
  { path := "/t/s"
    meta := { name := "s4", allowedTools := ["read_file", "write_file"] }
    resources := { scripts := ["deploy.sh"] } }

/-- A tool call naming the advertised base tool duckduckgo_search. -/
def ddgToolCall : ToolCall :=
  { id := "call-1", name := "duckduckgo_search", args := "" }

/-- A loop environment whose model immediately answers "done" with no
tool calls, every stdin read yields "y", all tools succeed, and no MCP
client is configured. -/
def okLoopEnv : LoopEnv :=
  { llm := fun _ _ => .ok { role := .assistant, content := "done" }
    scan := fun _ => some "y"
    tools := okToolEnv
    mcpPresent := false
    mcpGetTools := .ok []
    mcpCall := fun _ => .ok "" }

/-- okLoopEnv with failing stdin reads. -/
def scanFailLoopEnv : LoopEnv :=
  { okLoopEnv with scan := fun _ => none }

/-- okLoopEnv with a model that asks for the same tool call forever. -/
def loopingLoopEnv : LoopEnv :=
  { okLoopEnv with
    llm := fun _ _ => .ok
      { role := .assistant, content := ""
        toolCalls := [{ id := "c", name := "run_shell_code", args := "x" }] } }

/-- A runner configuration with auto-approve turned off. -/
def noApproveCfg : RunnerConfig :=
  { autoApproveTools := false }

/-- A read_file tool call used in concrete dispatch scenarios. -/
def rfToolCall : ToolCall :=
  { id := "call-1", name := "read_file", args := "x" }

/-- A tool call whose name matches neither the built-in switch nor any
script. -/
def unknownToolCall : ToolCall :=
  { id := "call-9", name := "nope", args := "a" }

/-- The default runner configuration (auto-approve on, as in Go). -/
def defaultCfg : RunnerConfig := {}

end GoSkills

namespace GoSkills

/-! ## Lemmas about catalog assembly -/

theorem safeNameChar_spec (c : Char) :
    safeNameChar c =
      if ('A' ≤ c ∧ c ≤ 'Z') ∨ ('a' ≤ c ∧ c ≤ 'z') ∨ ('0' ≤ c ∧ c ≤ '9') then c else '_' := by
  have hcond :
      ((('a' ≤ c && c ≤ 'z') || ('A' ≤ c && c ≤ 'Z') || ('0' ≤ c && c ≤ '9')) = true) ↔
        (('A' ≤ c ∧ c ≤ 'Z') ∨ ('a' ≤ c ∧ c ≤ 'z') ∨ ('0' ≤ c ∧ c ≤ '9')) := by
    simp only [Bool.or_eq_true, Bool.and_eq_true, decide_eq_true_eq]
    tauto
  unfold safeNameChar
  exact if_congr hcond rfl rfl

theorem scriptToolLoop_fst (skillPath : String) :
    ∀ (scripts : List String) (tools : List Tool) (m : List (String × String)),
      (scriptToolLoop skillPath scripts tools m).1
        = tools ++ scripts.map (fun r => (generateScriptTool r).1) := by
  intro scripts
  induction scripts with
  | nil => intro tools m; simp [scriptToolLoop]
  | cons r rest ih =>
    intro tools m
    rw [scriptToolLoop, ih]
    simp

theorem filterBaseLoop_eq_filter (allowed : List String) :
    ∀ (ts acc : List Tool),
      filterBaseLoop allowed ts acc
        = acc ++ ts.filter (fun t => allowed.contains t.function.name) := by
  intro ts
  induction ts with
  | nil => intro acc; simp [filterBaseLoop]
  | cons t rest ih =>
    intro acc
    rw [filterBaseLoop]
    by_cases h : allowed.contains t.function.name = true
    · have hm : t.function.name ∈ allowed := by simpa using h
      rw [if_pos h, ih]
      rw [List.filter_cons]
      rw [if_pos (by simpa using h)]
      simp
    · have hm : t.function.name ∉ allowed := by simpa using h
      rw [if_neg h, ih]
      rw [List.filter_cons]
      rw [if_neg (by simpa using hm)]

/-- The base-tool part of GenerateToolDefinitions, written as the
filtering the spec describes. -/
def specFilteredBase (skill : SkillPackage) : List Tool :=
  if skill.meta.allowedTools.length > 0 then
    GetBaseTools.filter (fun t => skill.meta.allowedTools.contains t.function.name)
  else
    GetBaseTools

theorem generateToolDefinitions_fst (skill : SkillPackage) :
    (GenerateToolDefinitions skill).1
      = specFilteredBase skill
          ++ skill.resources.scripts.map (fun r => (generateScriptTool r).1) := by
  unfold GenerateToolDefinitions specFilteredBase
  by_cases h : skill.meta.allowedTools.length > 0
  · rw [if_pos h, if_pos h, scriptToolLoop_fst, filterBaseLoop_eq_filter]
    simp
  · rw [if_neg h, if_neg h, scriptToolLoop_fst]

/-! ## Lemmas about skill-name extraction -/

theorem findSkillNameLoop_eq_find? (lc : String) :
    ∀ skills : List String,
      findSkillNameLoop lc skills
        = skills.find? (fun k => stringsContains lc (toLowerGo k)) := by
  intro skills
  induction skills with
  | nil => simp [findSkillNameLoop]
  | cons k rest ih =>
    rw [findSkillNameLoop, List.find?_cons]
    by_cases h : stringsContains lc (toLowerGo k) = true
    · rw [if_pos h, h]
    · rw [if_neg h, ih]
      simp only [Bool.not_eq_true] at h
      rw [h]

end GoSkills

namespace GoSkills

/-- C8.  Script tool name generation is the deterministic function the
spec describes: the name is "run_" followed by the relative path with
every character outside [A-Za-z0-9] replaced by an underscore
(concretely "scripts/test.py" maps to "run_scripts_test_py"), and the
script tools appear in the per-skill catalog after the filtered base
tools, in exactly the order of resources.scripts. -/
theorem c8_script_tool_name_generation :
    (∀ rel : String,
      (generateScriptTool rel).2
        = "run_" ++ String.mk (rel.data.map (fun c =>
            if ('A' ≤ c ∧ c ≤ 'Z') ∨ ('a' ≤ c ∧ c ≤ 'z') ∨ ('0' ≤ c ∧ c ≤ '9') then c
            else '_'))) ∧
    (generateScriptTool "scripts/test.py").2 = "run_scripts_test_py" ∧
    (∀ skill : SkillPackage,
      toolNames (GenerateToolDefinitions skill).1
        = toolNames (specFilteredBase skill)
            ++ skill.resources.scripts.map (fun r => (generateScriptTool r).2)) := by
  refine ⟨?_, by decide, ?_⟩
  · intro rel
    show "run_" ++ String.mk (rel.data.map safeNameChar) = _
    rw [funext safeNameChar_spec]
  · intro skill
    rw [generateToolDefinitions_fst]
    unfold toolNames
    rw [List.map_append, List.map_map]
    rfl

/-- C9.  Skill-name extraction from a selection reply: the reply is
trimmed (whitespace, then surrounding quotes); an exact match against
the known skill names wins; otherwise the first known skill name that
occurs case-insensitively inside the content is returned; otherwise the
trimmed content itself is returned (which the caller then rejects as an
unknown skill). -/
theorem c9_extract_skill_name (raw : String) (skills : List String) :
    (skills.contains (selectSkillContent raw) = true →
      selectedSkillName raw skills = selectSkillContent raw) ∧
    (skills.contains (selectSkillContent raw) = false →
      ∀ k, skills.find?
          (fun n => stringsContains (toLowerGo (selectSkillContent raw)) (toLowerGo n))
          = some k →
        selectedSkillName raw skills = k) ∧
    (skills.contains (selectSkillContent raw) = false →
      skills.find?
          (fun n => stringsContains (toLowerGo (selectSkillContent raw)) (toLowerGo n))
          = none →
      selectedSkillName raw skills = selectSkillContent raw) := by
  unfold selectedSkillName extractSkillName
  rw [findSkillNameLoop_eq_find?]
  refine ⟨fun h => ?_, fun h k hk => ?_, fun h hn => ?_⟩
  · rw [if_pos h]
  · rw [if_neg (by simpa using h), hk]
  · rw [if_neg (by simpa using h), hn]

/-- C9 witness: a reply that only mentions "pdf" inside a sentence is
resolved to the known skill name "pdf" through the substring branch. -/
theorem c9_extract_skill_name_witness :
    (["pdf", "xlsx"].contains (selectSkillContent "I would use the pdf skill here.") = false) ∧
    selectedSkillName "I would use the pdf skill here." ["pdf", "xlsx"] = "pdf" :=
  ⟨by decide,
   (c9_extract_skill_name "I would use the pdf skill here." ["pdf", "xlsx"]).2.1
     (by decide) "pdf" (by decide)⟩

/-- C10.  When auto-approve is off and the stdin read for a tool call
fails, that call is not dispatched: exactly one tool-role message with
the call's id and content "Error: Input scanning failed." is appended,
and processing continues with the remaining calls of the batch (whose
results are unchanged). -/
theorem c10_scan_error_skips_call (env : LoopEnv) (cfg : RunnerConfig)
    (scriptMap : List (String × String)) (skillPath : String)
    (tc : ToolCall) (rest : List ToolCall) (sc : Nat)
    (hauto : cfg.autoApproveTools = false)
    (hscan : env.scan sc = none) :
    processToolCalls env cfg scriptMap skillPath (tc :: rest) sc
      = (toolMsg tc.id "Error: Input scanning failed." ::
           (processToolCalls env cfg scriptMap skillPath rest (sc + 1)).1,
         (processToolCalls env cfg scriptMap skillPath rest (sc + 1)).2.1,
         (processToolCalls env cfg scriptMap skillPath rest (sc + 1)).2.2) := by
  rw [processToolCalls]
  rw [handleToolCall]
  rw [hauto, hscan]
  simp

/-- C10 witness: the concrete batch of one read_file call, a
configuration with auto-approve off and a failing stdin read. -/
theorem c10_scan_error_skips_call_witness :
    (noApproveCfg.autoApproveTools = false ∧ scanFailLoopEnv.scan 0 = none) ∧
    processToolCalls scanFailLoopEnv noApproveCfg [] "/s" [rfToolCall] 0
      = ([toolMsg "call-1" "Error: Input scanning failed."], 1, []) :=
  ⟨⟨rfl, rfl⟩, by
    rw [c10_scan_error_skips_call scanFailLoopEnv noApproveCfg [] "/s" rfToolCall [] 0 rfl rfl]
    rfl⟩

/-! ## Lemmas about the dispatch-failure message -/

theorem mkToolErrorMsg_contains_name (n a e : String) :
    stringsContains (mkToolErrorMsg n a e) n = true := by
  rw [stringsContains_iff]
  refine ⟨"Tool execution failed: ".data,
    ("\nError details: " ++ e ++ "\nTool name: " ++ n ++ "\nArguments: " ++ a ++
      toolRecoveryGuidance).data, ?_⟩
  simp [mkToolErrorMsg, String.data_append, List.append_assoc]

theorem mkToolErrorMsg_contains_args (n a e : String) :
    stringsContains (mkToolErrorMsg n a e) a = true := by
  rw [stringsContains_iff]
  refine ⟨("Tool execution failed: " ++ n ++ "\nError details: " ++ e ++
      "\nTool name: " ++ n ++ "\nArguments: ").data,
    toolRecoveryGuidance.data, ?_⟩
  simp [mkToolErrorMsg, String.data_append, List.append_assoc]

theorem toolRecoveryGuidance_within (n a e : String) :
    toolRecoveryGuidance.data <:+: (mkToolErrorMsg n a e).data := by
  refine ⟨("Tool execution failed: " ++ n ++ "\nError details: " ++ e ++
      "\nTool name: " ++ n ++ "\nArguments: " ++ a).data, [], ?_⟩
  simp [mkToolErrorMsg, String.data_append, List.append_assoc]

theorem mkToolErrorMsg_contains_of_guidance (n a e sub : String)
    (h : sub.data <:+: toolRecoveryGuidance.data) :
    stringsContains (mkToolErrorMsg n a e) sub = true := by
  rw [stringsContains_iff]
  exact h.trans (toolRecoveryGuidance_within n a e)

end GoSkills

namespace GoSkills

/-- C5.  When the dispatch of an (auto-approved) tool call fails with
error details e, exactly one tool-role message is appended for that
call, carrying the call's id; its content names the tool, restates the
call's raw JSON arguments verbatim, and spells out the three recovery
suggestions; and the loop never surfaces a dispatch failure as the
run's error (run errors are only the chat-completion error or the
iteration limit). -/
theorem c5_dispatch_error_feedback (env : LoopEnv) (cfg : RunnerConfig)
    (scriptMap : List (String × String)) (skillPath : String)
    (tc : ToolCall) (sc : Nat) (e : String)
    (hauto : cfg.autoApproveTools = true)
    (hdisp : dispatchToolCall env tc scriptMap skillPath = .error e) :
    handleToolCall env cfg scriptMap skillPath tc sc
      = ([toolMsg tc.id (mkToolErrorMsg tc.name tc.args e)], sc, true) ∧
    stringsContains (mkToolErrorMsg tc.name tc.args e) tc.name = true ∧
    stringsContains (mkToolErrorMsg tc.name tc.args e) tc.args = true ∧
    stringsContains (mkToolErrorMsg tc.name tc.args e) "1. Retry with different parameters" = true ∧
    stringsContains (mkToolErrorMsg tc.name tc.args e) "2. Use a different tool to fix it" = true ∧
    stringsContains (mkToolErrorMsg tc.name tc.args e) "3. Modify your approach" = true ∧
    (∀ (ts : List Tool) (fuel : Nat) (msgs : List ChatMessage) (sc' calls : Nat)
       (ids : List String) (err : RunErr),
      (toolLoop env cfg scriptMap skillPath ts fuel msgs sc' calls ids).result = .error err →
      err = .iterationLimit ∨ ∃ s, err = .chatError s) := by
  refine ⟨?_, mkToolErrorMsg_contains_name _ _ _, mkToolErrorMsg_contains_args _ _ _,
    mkToolErrorMsg_contains_of_guidance _ _ _ _ (by decide),
    mkToolErrorMsg_contains_of_guidance _ _ _ _ (by decide),
    mkToolErrorMsg_contains_of_guidance _ _ _ _ (by decide), ?_⟩
  · rw [handleToolCall, hauto]
    simp [hdisp]
  · intro ts fuel msgs sc' calls ids err _
    cases err with
    | chatError s => exact Or.inr ⟨s, rfl⟩
    | iterationLimit => exact Or.inl rfl

/-- C5 witness: a concrete unknown-tool call under the default
(auto-approving) configuration. -/
theorem c5_dispatch_error_feedback_witness :
    (defaultCfg.autoApproveTools = true ∧
      dispatchToolCall okLoopEnv unknownToolCall [] "/s" = .error "unknown tool: nope") ∧
    handleToolCall okLoopEnv defaultCfg [] "/s" unknownToolCall 0
      = ([toolMsg "call-9" (mkToolErrorMsg "nope" "a" "unknown tool: nope")], 0, true) :=
  ⟨⟨rfl, rfl⟩,
   (c5_dispatch_error_feedback okLoopEnv defaultCfg [] "/s" unknownToolCall 0
      "unknown tool: nope" rfl rfl).1⟩

/-! ## Lemmas about the MCP call loop -/

/-- A session whose every call attempt succeeds. -/
def okCallEnv : CallEnv :=
  { attempt := fun _ => .ok "r" }

/-- A session whose every call attempt fails with a connection error. -/
def connFailCallEnv : CallEnv :=
  { attempt := fun _ => .error "connection closed: boom" }

theorem callLoop_remote (env : CallEnv) (maxR : Nat) (s t : String) :
    ∀ (rem i : Nat) (w : List Nat) (c r : Nat),
      (callLoop env maxR s t true rem i w c r).remote = some (s, t) := by
  intro rem
  induction rem with
  | zero => intro i w c r; rfl
  | succ n ih =>
    intro i w c r
    rw [callLoop]
    simp only [Bool.not_true, Bool.false_eq_true, if_false]
    cases henv : env.attempt i with
    | ok r' => rfl
    | error e =>
      dsimp only
      by_cases hc : isConnectionError e = true
      · rw [if_pos hc]
        by_cases hi : i < maxR - 1
        · rw [if_pos hi]; exact ih (i + 1) (w ++ [i + 1]) (c + 1) (r + 1)
        · rw [if_neg hi]
      · rw [if_neg hc]

theorem parseToolName_of_level (name : String)
    (h : (splitDunder name.data).length ≠ 2) :
    parseToolName name = .error ("invalid tool name format: " ++ name) := by
  unfold parseToolName
  split
  next s t heq => exact absurd (by rw [heq]; rfl) h
  next => rfl

end GoSkills

namespace GoSkills

/-- C7 counterexample.  The spec's "split on __ exactly once" would
split "a__b__c" into the two parts "a" and "b__c" and dispatch it, but
the code splits on every occurrence of "__" (three parts here) and
rejects the name as malformed. -/
theorem c7_split_once_counterexample :
    parseToolName "a__b__c" = .error "invalid tool name format: a__b__c" ∧
    splitOnceSpec "a__b__c" = ["a", "b__c"] ∧
    (splitOnceSpec "a__b__c").length = 2 := by
  refine ⟨by rfl, by rfl, by rfl⟩

/-- C7 (amended).  The MCP client splits a tool name on every
occurrence of "__": unless exactly two parts result, the call fails
with the bad-tool-name error before touching any session; with two
parts, an unconfigured server yields the unknown-server error with no
call attempt, a configured server without an open session yields the
session-not-found error, and otherwise the call is dispatched to the
matching session under the remote tool name. -/
theorem c7_tool_name_dispatch (env : CallEnv) (servers : List String)
    (maxR : Nat) (hasSession : Bool) (name : String) :
    ((splitDunder name.data).length ≠ 2 →
      parseToolName name = .error ("invalid tool name format: " ++ name) ∧
      (CallTool env servers maxR hasSession name).result = .error (.badName name) ∧
      (CallTool env servers maxR hasSession name).remote = none ∧
      (CallTool env servers maxR hasSession name).attemptsMade = 0) ∧
    (∀ st : String × String, parseToolName name = .ok st →
      (servers.contains st.1 = false →
        (CallTool env servers maxR hasSession name).result = .error (.serverNotInConfig st.1) ∧
        (CallTool env servers maxR hasSession name).attemptsMade = 0) ∧
      (servers.contains st.1 = true → hasSession = false → 0 < maxR →
        (CallTool env servers maxR hasSession name).result = .error (.sessionNotFound st.1)) ∧
      (servers.contains st.1 = true → hasSession = true →
        (CallTool env servers maxR hasSession name).remote = some st)) := by
  constructor
  · intro h
    have hp := parseToolName_of_level name h
    refine ⟨hp, ?_, ?_, ?_⟩ <;> simp [CallTool, hp]
  · intro st hok
    refine ⟨fun hs => ?_, fun hs hsess hpos => ?_, fun hs hsess => ?_⟩
    · have hm : st.1 ∉ servers := by simpa using hs
      constructor <;> simp [CallTool, hok, hm]
    · subst hsess
      have hm : st.1 ∈ servers := by simpa using hs
      obtain ⟨n, rfl⟩ : ∃ n, maxR = n + 1 := ⟨maxR - 1, by omega⟩
      have hred : CallTool env servers (n + 1) false name
          = callLoop env (n + 1) st.1 st.2 false (n + 1) 0 [] 0 0 := by
        simp [CallTool, hok, hm]
      rw [hred, callLoop]
      simp
    · subst hsess
      have hm : st.1 ∈ servers := by simpa using hs
      have hred : CallTool env servers maxR true name
          = callLoop env maxR st.1 st.2 true maxR 0 [] 0 0 := by
        simp [CallTool, hok, hm]
      rw [hred]
      exact callLoop_remote env maxR st.1 st.2 maxR 0 [] 0 0

/-- C7 witness: a well-formed namespaced name for a configured server
with an open session reaches that session under the remote tool name. -/
theorem c7_tool_name_dispatch_witness :
    parseToolName "srv__tool" = .ok ("srv", "tool") ∧
    (["srv"] : List String).contains "srv" = true ∧
    (CallTool okCallEnv ["srv"] 3 true "srv__tool").remote = some ("srv", "tool") :=
  ⟨rfl, rfl,
   (((c7_tool_name_dispatch okCallEnv ["srv"] 3 true "srv__tool").2
      ("srv", "tool") rfl).2.2) rfl rfl⟩

end GoSkills

namespace GoSkills

/-! ## Trace lemmas for the MCP retry loop -/

theorem callLoop_ne_afterRetries (env : CallEnv) (maxR : Nat) (s t : String) :
    ∀ (rem i : Nat) (w : List Nat) (c r : Nat), i + rem = maxR → 0 < rem →
      ∀ n, (callLoop env maxR s t true rem i w c r).result ≠ .error (.afterRetries n) := by
  intro rem
  induction rem with
  | zero => intro i w c r _ h; omega
  | succ k ih =>
    intro i w c r hsum _ n
    rw [callLoop]
    simp only [Bool.not_true, Bool.false_eq_true, if_false]
    cases henv : env.attempt i with
    | ok r' => simp
    | error e =>
      dsimp only
      by_cases hc : isConnectionError e = true
      · rw [if_pos hc]
        by_cases hi : i < maxR - 1
        · rw [if_pos hi]
          exact ih (i + 1) (w ++ [i + 1]) (c + 1) (r + 1) (by omega) (by omega) n
        · rw [if_neg hi]; simp
      · rw [if_neg hc]; simp

theorem callLoop_trace (env : CallEnv) (maxR : Nat) (s t : String) :
    ∀ (rem i : Nat) (w : List Nat) (c r : Nat), i + rem = maxR → 0 < rem →
      i < (callLoop env maxR s t true rem i w c r).attemptsMade ∧
      (callLoop env maxR s t true rem i w c r).attemptsMade ≤ maxR ∧
      (callLoop env maxR s t true rem i w c r).waits
        = w ++ List.range' (i + 1) ((callLoop env maxR s t true rem i w c r).attemptsMade - 1 - i) ∧
      (callLoop env maxR s t true rem i w c r).reconnects
        = r + ((callLoop env maxR s t true rem i w c r).attemptsMade - 1 - i) := by
  intro rem
  induction rem with
  | zero => intro i w c r _ h; omega
  | succ k ih =>
    intro i w c r hsum _
    rw [callLoop]
    simp only [Bool.not_true, Bool.false_eq_true, if_false]
    cases henv : env.attempt i with
    | ok r' =>
      dsimp only
      exact ⟨by omega, by omega, by simp, by simp⟩
    | error e =>
      dsimp only
      by_cases hc : isConnectionError e = true
      · rw [if_pos hc]
        by_cases hi : i < maxR - 1
        · rw [if_pos hi]
          obtain ⟨h1, h2, h3, h4⟩ :=
            ih (i + 1) (w ++ [i + 1]) (c + 1) (r + 1) (by omega) (by omega)
          set out := callLoop env maxR s t true k (i + 1) (w ++ [i + 1]) (c + 1) (r + 1)
          refine ⟨by omega, h2, ?_, by omega⟩
          rw [h3]
          have hsplit : out.attemptsMade - 1 - i = (out.attemptsMade - 1 - (i + 1)) + 1 := by
            omega
          rw [hsplit, List.range'_succ, List.append_assoc]
          rfl
        · rw [if_neg hi]
          dsimp only
          exact ⟨by omega, by omega, by simp, by simp⟩
      · rw [if_neg hc]
        dsimp only
        exact ⟨by omega, by omega, by simp, by simp⟩

theorem callLoop_nonconn_first (env : CallEnv) (maxR : Nat) (s t : String)
    (rem i : Nat) (w : List Nat) (c r : Nat) (e : String)
    (hrem : 0 < rem)
    (henv : env.attempt i = .error e)
    (hc : isConnectionError e = false) :
    callLoop env maxR s t true rem i w c r
      = ⟨.error (.callFailed e), i + 1, w, c, r, some (s, t)⟩ := by
  obtain ⟨k, rfl⟩ : ∃ k, rem = k + 1 := ⟨rem - 1, by omega⟩
  rw [callLoop]
  simp [henv, hc]

theorem callLoop_retry_success (env : CallEnv) (maxR : Nat) (s t : String) :
    ∀ (k rem i : Nat) (w : List Nat) (c r : Nat) (res : String),
      i + rem = maxR → k < rem →
      (∀ j, i ≤ j → j < i + k → ∃ e, env.attempt j = .error e ∧ isConnectionError e = true) →
      env.attempt (i + k) = .ok res →
      (callLoop env maxR s t true rem i w c r).result = .ok res ∧
      (callLoop env maxR s t true rem i w c r).attemptsMade = i + k + 1 := by
  intro k
  induction k with
  | zero =>
    intro rem i w c r res hsum hlt hconn hok
    obtain ⟨m, rfl⟩ : ∃ m, rem = m + 1 := ⟨rem - 1, by omega⟩
    rw [callLoop]
    simp only [Bool.not_true, Bool.false_eq_true, if_false]
    rw [show env.attempt i = .ok res from hok]
    exact ⟨rfl, rfl⟩
  | succ k ih =>
    intro rem i w c r res hsum hlt hconn hok
    obtain ⟨m, rfl⟩ : ∃ m, rem = m + 1 := ⟨rem - 1, by omega⟩
    obtain ⟨e, he, hce⟩ := hconn i le_rfl (by omega)
    rw [callLoop]
    simp only [Bool.not_true, Bool.false_eq_true, if_false]
    rw [he]
    dsimp only
    rw [if_pos hce, if_pos (by omega : i < maxR - 1)]
    have := ih m (i + 1) (w ++ [i + 1]) (c + 1) (r + 1) res (by omega) (by omega)
      (fun j h1 h2 => hconn j (by omega) (by omega))
      (by rw [show i + 1 + k = i + (k + 1) by omega]; exact hok)
    exact ⟨this.1, by omega⟩

theorem callLoop_exhaust (env : CallEnv) (maxR : Nat) (s t : String) :
    ∀ (rem i : Nat) (w : List Nat) (c r : Nat) (e : String),
      i + rem = maxR → 0 < rem →
      (∀ j, i ≤ j → j < maxR → ∃ e', env.attempt j = .error e' ∧ isConnectionError e' = true) →
      env.attempt (maxR - 1) = .error e →
      (callLoop env maxR s t true rem i w c r).result = .error (.callFailed e) ∧
      (callLoop env maxR s t true rem i w c r).attemptsMade = maxR ∧
      (callLoop env maxR s t true rem i w c r).closes = c + (maxR - i) := by
  intro rem
  induction rem with
  | zero => intro i w c r e _ h; omega
  | succ k ih =>
    intro i w c r e hsum _ hconn hlast
    rw [callLoop]
    simp only [Bool.not_true, Bool.false_eq_true, if_false]
    cases hk : k with
    | zero =>
      have hi : i = maxR - 1 := by omega
      rw [hi, hlast]
      dsimp only
      obtain ⟨e', he', hce'⟩ := hconn (maxR - 1) (by omega) (by omega)
      have hce : isConnectionError e = true := by
        rw [hlast] at he'
        cases he'
        exact hce'
      rw [if_pos hce, if_neg (by omega : ¬ maxR - 1 < maxR - 1)]
      refine ⟨rfl, by simp; omega, by simp; omega⟩
    | succ m =>
      obtain ⟨e', he', hce'⟩ := hconn i le_rfl (by omega)
      rw [he']
      dsimp only
      rw [if_pos hce', if_pos (by omega : i < maxR - 1)]
      have := ih (i + 1) (w ++ [i + 1]) (c + 1) (r + 1) e (by omega) (by omega)
        (fun j h1 h2 => hconn j (by omega) h2) hlast
      rw [hk] at this
      exact ⟨this.1, this.2.1, by rw [this.2.2]; omega⟩

theorem effectiveMaxRetries_pos (configured : Int) : 0 < effectiveMaxRetries configured := by
  unfold effectiveMaxRetries
  split
  · omega
  · next h => omega

end GoSkills

namespace GoSkills

/-- C6 counterexample.  With the default retry count (3) and a session
that fails every attempt with a connection error, CallTool performs all
three attempts with backoffs of 1 and 2 seconds, but the exhausted call
returns the plain wrapped error "failed to call tool: ...", not the
claimed after-retries error: the "failed to call tool after n retries"
return is unreachable. -/
theorem c6_after_retries_counterexample :
    effectiveMaxRetries 0 = 3 ∧
    isConnectionError "connection closed: boom" = true ∧
    (CallTool connFailCallEnv ["srv"] (effectiveMaxRetries 0) true "srv__tool").result
      = .error (.callFailed "connection closed: boom") ∧
    (CallTool connFailCallEnv ["srv"] (effectiveMaxRetries 0) true "srv__tool").attemptsMade = 3 ∧
    (CallTool connFailCallEnv ["srv"] (effectiveMaxRetries 0) true "srv__tool").waits = [1, 2] ∧
    (∀ n, (CallTool connFailCallEnv ["srv"] (effectiveMaxRetries 0) true "srv__tool").result
      ≠ .error (.afterRetries n)) := by
  refine ⟨rfl, rfl, rfl, rfl, rfl, ?_⟩
  intro n hn
  rw [show (CallTool connFailCallEnv ["srv"] (effectiveMaxRetries 0) true "srv__tool").result
      = .error (.callFailed "connection closed: boom") from rfl] at hn
  simp at hn

/-- C6 (amended).  CallTool classifies errors by the four connection
substrings; a connection error closes the session, waits
attempt-number seconds, rebuilds the session and retries, all bounded
by max_retries (default 3, the j-th backoff being j seconds); a
non-connection error is returned immediately, wrapped, with no retry;
but on exhaustion the final connection error is returned as the plain
wrapped call error - the after-retries error is unreachable. -/
theorem c6_connection_retry (env : CallEnv) (servers : List String)
    (configured : Int) (name : String) (st : String × String)
    (hok : parseToolName name = .ok st)
    (hs : servers.contains st.1 = true) :
    let maxR := effectiveMaxRetries configured
    let out := CallTool env servers maxR true name
    (∀ n, out.result ≠ .error (.afterRetries n)) ∧
    1 ≤ out.attemptsMade ∧
    out.attemptsMade ≤ maxR ∧
    out.waits = List.range' 1 (out.attemptsMade - 1) ∧
    out.reconnects = out.attemptsMade - 1 ∧
    (∀ e, env.attempt 0 = .error e → isConnectionError e = false →
      out.result = .error (.callFailed e) ∧ out.attemptsMade = 1) ∧
    (∀ k res, k < maxR →
      (∀ j, j < k → ∃ e, env.attempt j = .error e ∧ isConnectionError e = true) →
      env.attempt k = .ok res →
      out.result = .ok res ∧ out.attemptsMade = k + 1) ∧
    (∀ e, (∀ j, j < maxR → ∃ e', env.attempt j = .error e' ∧ isConnectionError e' = true) →
      env.attempt (maxR - 1) = .error e →
      out.result = .error (.callFailed e) ∧ out.attemptsMade = maxR ∧ out.closes = maxR) := by
  intro maxR out
  have hm : st.1 ∈ servers := by simpa using hs
  have hpos : 0 < maxR := effectiveMaxRetries_pos configured
  have hred : out = callLoop env maxR st.1 st.2 true maxR 0 [] 0 0 := by
    simp [out, CallTool, hok, hm]
  obtain ⟨h1, h2, h3, h4⟩ :=
    callLoop_trace env maxR st.1 st.2 maxR 0 [] 0 0 (by omega) hpos
  refine ⟨?_, ?_, ?_, ?_, ?_, ?_, ?_, ?_⟩
  · intro n
    rw [hred]
    exact callLoop_ne_afterRetries env maxR st.1 st.2 maxR 0 [] 0 0 (by omega) hpos n
  · rw [hred]; omega
  · rw [hred]; exact h2
  · rw [hred, h3]; simp
  · rw [hred, h4]; simp
  · intro e he hc
    rw [hred]
    rw [callLoop_nonconn_first env maxR st.1 st.2 maxR 0 [] 0 0 e hpos he hc]
    exact ⟨rfl, rfl⟩
  · intro k res hk hconn hk2
    rw [hred]
    have := callLoop_retry_success env maxR st.1 st.2 k maxR 0 [] 0 0 res (by omega) hk
      (fun j hj1 hj2 => hconn j (by omega)) (by simpa using hk2)
    exact ⟨this.1, by omega⟩
  · intro e hconn hlast
    rw [hred]
    have := callLoop_exhaust env maxR st.1 st.2 maxR 0 [] 0 0 e (by omega) hpos
      (fun j hj1 hj2 => hconn j hj2) hlast
    exact ⟨this.1, this.2.1, by omega⟩

/-- C6 witness: the connection-failing session under the default retry
count: no after-retries error is ever produced. -/
theorem c6_connection_retry_witness :
    parseToolName "srv__tool" = .ok ("srv", "tool") ∧
    (["srv"] : List String).contains "srv" = true ∧
    (∀ n, (CallTool connFailCallEnv ["srv"] (effectiveMaxRetries 0) true "srv__tool").result
      ≠ .error (.afterRetries n)) :=
  ⟨rfl, rfl,
   (c6_connection_retry connFailCallEnv ["srv"] 0 "srv__tool" ("srv", "tool") rfl rfl).1⟩

end GoSkills

namespace GoSkills

/-! ## Lemmas about the bounded tool-use loop -/

theorem toolLoop_llmCalls_le (env : LoopEnv) (cfg : RunnerConfig)
    (sm : List (String × String)) (sp : String) (ts : List Tool) :
    ∀ (fuel : Nat) (msgs : List ChatMessage) (sc calls : Nat) (ids : List String),
      (toolLoop env cfg sm sp ts fuel msgs sc calls ids).llmCalls ≤ calls + fuel := by
  intro fuel
  induction fuel with
  | zero => intro msgs sc calls ids; simp [toolLoop]
  | succ n ih =>
    intro msgs sc calls ids
    rw [toolLoop]
    cases env.llm msgs ts with
    | error e => dsimp only; omega
    | ok m =>
      dsimp only
      by_cases hemp : m.toolCalls.isEmpty = true
      · rw [if_pos hemp]; dsimp only; omega
      · rw [if_neg hemp]
        calc (toolLoop env cfg sm sp ts n _ _ (calls + 1) _).llmCalls
            ≤ (calls + 1) + n := ih _ _ _ _
          _ = calls + (n + 1) := by omega

theorem toolLoop_ok_last (env : LoopEnv) (cfg : RunnerConfig)
    (sm : List (String × String)) (sp : String) (ts : List Tool) :
    ∀ (fuel : Nat) (msgs : List ChatMessage) (sc calls : Nat) (ids : List String) (s : String),
      (toolLoop env cfg sm sp ts fuel msgs sc calls ids).result = .ok s →
      ∃ m, (toolLoop env cfg sm sp ts fuel msgs sc calls ids).messages.getLast? = some m ∧
        m.toolCalls = [] ∧ s = m.content := by
  intro fuel
  induction fuel with
  | zero => intro msgs sc calls ids s h; exact absurd h (by simp [toolLoop])
  | succ n ih =>
    intro msgs sc calls ids s h
    rw [toolLoop] at h ⊢
    split at h
    next e heq =>
      simp at h
    next m heq =>
      dsimp only at h ⊢
      by_cases hemp : m.toolCalls.isEmpty = true
      · rw [if_pos hemp] at h ⊢
        refine ⟨m, ?_, List.isEmpty_iff.mp hemp, ?_⟩
        · simp
        · dsimp only at h
          cases h; rfl
      · rw [if_neg hemp] at h ⊢
        exact ih _ _ _ _ s h

theorem toolLoop_limit_calls (env : LoopEnv) (cfg : RunnerConfig)
    (sm : List (String × String)) (sp : String) (ts : List Tool) :
    ∀ (fuel : Nat) (msgs : List ChatMessage) (sc calls : Nat) (ids : List String),
      (toolLoop env cfg sm sp ts fuel msgs sc calls ids).result = .error .iterationLimit →
      (toolLoop env cfg sm sp ts fuel msgs sc calls ids).llmCalls = calls + fuel := by
  intro fuel
  induction fuel with
  | zero => intro msgs sc calls ids _; rfl
  | succ n ih =>
    intro msgs sc calls ids h
    rw [toolLoop] at h ⊢
    split at h
    next e heq =>
      simp at h
    next m heq =>
      dsimp only at h ⊢
      by_cases hemp : m.toolCalls.isEmpty = true
      · rw [if_pos hemp] at h
        simp at h
      · rw [if_neg hemp] at h ⊢
        rw [ih _ _ _ _ h]
        omega

theorem toolLoop_no_terminal (env : LoopEnv) (cfg : RunnerConfig)
    (sm : List (String × String)) (sp : String) (ts : List Tool)
    (hwf : ∀ (msgs : List ChatMessage) (tools : List Tool) (m : ChatMessage),
      env.llm msgs tools = .ok m → m.toolCalls ≠ []) :
    ∀ (fuel : Nat) (msgs : List ChatMessage) (sc calls : Nat) (ids : List String),
      (toolLoop env cfg sm sp ts fuel msgs sc calls ids).result = .error .iterationLimit ∨
      ∃ e, (toolLoop env cfg sm sp ts fuel msgs sc calls ids).result = .error (.chatError e) := by
  intro fuel
  induction fuel with
  | zero => intro msgs sc calls ids; exact Or.inl rfl
  | succ n ih =>
    intro msgs sc calls ids
    rw [toolLoop]
    cases hllm : env.llm msgs ts with
    | error e => exact Or.inr ⟨e, rfl⟩
    | ok m =>
      dsimp only
      have hne : m.toolCalls ≠ [] := hwf msgs ts m hllm
      rw [if_neg (by simpa [List.isEmpty_iff] using hne)]
      exact ih _ _ _ _

end GoSkills

namespace GoSkills

/-- C2.  The tool-use conversation makes at most 20 chat-completion
calls; a reply without tool calls terminates the run at once, returning
that reply's content (the reply being the last message of the final
history); if no terminal reply arrives, exactly 20 calls are made and
the run fails with the iteration-limit error (rendered as "exceeded
maximum tool call iterations"), returning no final text. -/
theorem c2_iteration_bound (env : LoopEnv) (cfg : RunnerConfig)
    (skill : SkillPackage) (prompt : String) (msgs0 : List ChatMessage) :
    let out := continueSkillWithTools env cfg skill prompt msgs0
    out.llmCalls ≤ 20 ∧
    (∀ s, out.result = .ok s →
      ∃ m, out.messages.getLast? = some m ∧ m.toolCalls = [] ∧ s = m.content) ∧
    (out.result = .error .iterationLimit → out.llmCalls = 20) ∧
    RunErr.iterationLimit.message = "exceeded maximum tool call iterations" ∧
    ((∀ (msgs : List ChatMessage) (tools : List Tool) (m : ChatMessage),
        env.llm msgs tools = .ok m → m.toolCalls ≠ []) →
      out.result = .error .iterationLimit ∨
      ∃ e, out.result = .error (.chatError e)) := by
  intro out
  have hred : out = toolLoop env cfg (GenerateToolDefinitions skill).2 skill.path
      (mergedAvailableTools skill (if env.mcpPresent then some env.mcpGetTools else none)) 20
      (msgs0 ++ [{ role := .user, content := prompt }]) 0 0 [] := rfl
  refine ⟨?_, ?_, ?_, rfl, ?_⟩
  · rw [hred]; exact toolLoop_llmCalls_le env cfg _ _ _ 20 _ 0 0 []
  · intro s hs
    rw [hred] at hs ⊢
    exact toolLoop_ok_last env cfg _ _ _ 20 _ 0 0 [] s hs
  · intro h
    rw [hred] at h ⊢
    exact toolLoop_limit_calls env cfg _ _ _ 20 _ 0 0 [] h
  · intro hwf
    rw [hred]
    exact toolLoop_no_terminal env cfg _ _ _ hwf 20 _ 0 0 []

/-- C2 witness: a model that requests a tool call on every iteration
drives the run into the iteration-limit error. -/
theorem c2_iteration_bound_witness :
    (continueSkillWithTools loopingLoopEnv defaultCfg plainSkill "p" []).result
        = .error .iterationLimit ∨
    ∃ e, (continueSkillWithTools loopingLoopEnv defaultCfg plainSkill "p" []).result
        = .error (.chatError e) :=
  (c2_iteration_bound loopingLoopEnv defaultCfg plainSkill "p" []).2.2.2.2
    (fun msgs tools m h => by cases h; simp)

end GoSkills

namespace GoSkills

/-! ## Lemmas about system-message counts -/

/-- The number of messages of a given role in a history. -/
def countRole (r : Role) (msgs : List ChatMessage) : Nat :=
  msgs.countP (fun m => m.role == r)

theorem handleToolCall_delta (env : LoopEnv) (cfg : RunnerConfig)
    (scriptMap : List (String × String)) (skillPath : String)
    (tc : ToolCall) (sc : Nat) :
    ∃ content, (handleToolCall env cfg scriptMap skillPath tc sc).1
      = [toolMsg tc.id content] := by
  unfold handleToolCall
  dsimp only
  split
  · cases hscan : env.scan sc with
    | none => exact ⟨_, rfl⟩
    | some input =>
      dsimp only
      split
      · exact ⟨_, rfl⟩
      · cases hd : dispatchToolCall env tc scriptMap skillPath with
        | ok out => exact ⟨out, rfl⟩
        | error e => exact ⟨mkToolErrorMsg tc.name tc.args e, rfl⟩
  · cases hd : dispatchToolCall env tc scriptMap skillPath with
    | ok out => exact ⟨out, rfl⟩
    | error e => exact ⟨mkToolErrorMsg tc.name tc.args e, rfl⟩

theorem processToolCalls_no_system (env : LoopEnv) (cfg : RunnerConfig)
    (scriptMap : List (String × String)) (skillPath : String) :
    ∀ (tcs : List ToolCall) (sc : Nat),
      countRole .system (processToolCalls env cfg scriptMap skillPath tcs sc).1 = 0 := by
  intro tcs
  induction tcs with
  | nil => intro sc; rfl
  | cons tc rest ih =>
    intro sc
    rw [processToolCalls]
    obtain ⟨content, hc⟩ := handleToolCall_delta env cfg scriptMap skillPath tc sc
    dsimp only
    rw [countRole, List.countP_append, hc]
    have h2 := ih (handleToolCall env cfg scriptMap skillPath tc sc).2.1
    rw [countRole] at h2
    rw [h2]
    rfl

theorem toolLoop_messages_ext (env : LoopEnv) (cfg : RunnerConfig)
    (sm : List (String × String)) (sp : String) (ts : List Tool) :
    ∀ (fuel : Nat) (msgs : List ChatMessage) (sc calls : Nat) (ids : List String),
      ∃ tail, (toolLoop env cfg sm sp ts fuel msgs sc calls ids).messages = msgs ++ tail := by
  intro fuel
  induction fuel with
  | zero => intro msgs sc calls ids; exact ⟨[], by simp [toolLoop]⟩
  | succ n ih =>
    intro msgs sc calls ids
    rw [toolLoop]
    cases hllm : env.llm msgs ts with
    | error e => exact ⟨[], by simp⟩
    | ok m =>
      dsimp only
      by_cases hemp : m.toolCalls.isEmpty = true
      · rw [if_pos hemp]
        exact ⟨[m], rfl⟩
      · rw [if_neg hemp]
        obtain ⟨tail, htail⟩ := ih (msgs ++ [m] ++ (processToolCalls env cfg sm sp m.toolCalls sc).1)
          (processToolCalls env cfg sm sp m.toolCalls sc).2.1 (calls + 1)
          (ids ++ (processToolCalls env cfg sm sp m.toolCalls sc).2.2)
        refine ⟨[m] ++ (processToolCalls env cfg sm sp m.toolCalls sc).1 ++ tail, ?_⟩
        rw [htail]
        simp

theorem toolLoop_system_count (env : LoopEnv) (cfg : RunnerConfig)
    (sm : List (String × String)) (sp : String) (ts : List Tool)
    (hwf : ∀ (msgs : List ChatMessage) (tools : List Tool) (m : ChatMessage),
      env.llm msgs tools = .ok m → m.role = .assistant) :
    ∀ (fuel : Nat) (msgs : List ChatMessage) (sc calls : Nat) (ids : List String),
      countRole .system (toolLoop env cfg sm sp ts fuel msgs sc calls ids).messages
        = countRole .system msgs := by
  intro fuel
  induction fuel with
  | zero => intro msgs sc calls ids; rfl
  | succ n ih =>
    intro msgs sc calls ids
    rw [toolLoop]
    cases hllm : env.llm msgs ts with
    | error e => rfl
    | ok m =>
      dsimp only
      have hrole : m.role = .assistant := hwf msgs ts m hllm
      have hm : countRole .system [m] = 0 := by
        rw [countRole, List.countP_cons]
        rw [show (m.role == Role.system) = false by rw [hrole]; rfl]
        rfl
      by_cases hemp : m.toolCalls.isEmpty = true
      · rw [if_pos hemp]
        dsimp only
        rw [countRole, List.countP_append]
        rw [countRole] at hm
        rw [hm, countRole]
        omega
      · rw [if_neg hemp]
        rw [ih]
        rw [countRole, List.countP_append, List.countP_append]
        have hp := processToolCalls_no_system env cfg sm sp m.toolCalls sc
        rw [countRole] at hm hp
        rw [hm, hp, countRole]
        omega

theorem continueSkill_system_count (env : LoopEnv) (cfg : RunnerConfig)
    (skill : SkillPackage) (prompt : String) (msgs0 : List ChatMessage)
    (hwf : ∀ (msgs : List ChatMessage) (tools : List Tool) (m : ChatMessage),
      env.llm msgs tools = .ok m → m.role = .assistant) :
    countRole .system (continueSkillWithTools env cfg skill prompt msgs0).messages
      = countRole .system msgs0 := by
  have hred : (continueSkillWithTools env cfg skill prompt msgs0).messages
      = (toolLoop env cfg (GenerateToolDefinitions skill).2 skill.path
          (mergedAvailableTools skill (if env.mcpPresent then some env.mcpGetTools else none)) 20
          (msgs0 ++ [{ role := .user, content := prompt }]) 0 0 []).messages := rfl
  rw [hred, toolLoop_system_count env cfg _ _ _ hwf]
  rw [countRole, List.countP_append]
  rfl

theorem runLoopRounds_system_count (env : LoopEnv) (cfg : RunnerConfig)
    (skill : SkillPackage) (stdin : Nat → String)
    (hwf : ∀ (msgs : List ChatMessage) (tools : List Tool) (m : ChatMessage),
      env.llm msgs tools = .ok m → m.role = .assistant) :
    ∀ (fuel : Nat) (prompt : String) (msgs : List ChatMessage) (k : Nat),
      countRole .system (runLoopRounds env cfg skill stdin fuel prompt msgs k)
        = countRole .system msgs := by
  intro fuel
  induction fuel with
  | zero => intro prompt msgs k; rfl
  | succ n ih =>
    intro prompt msgs k
    rw [runLoopRounds]
    split
    · exact continueSkill_system_count env cfg skill prompt msgs hwf
    · split
      · rw [ih]
        exact continueSkill_system_count env cfg skill prompt msgs hwf
      · rw [ih]
        exact continueSkill_system_count env cfg skill prompt msgs hwf

end GoSkills

namespace GoSkills

/-- C4 counterexample.  A RunLoop session (one round, model answers
directly, operator then ends the session) produces a non-trivial
history - the user prompt and the assistant reply - that contains no
system message at all: RunLoop never composes the skill system prompt,
so "never zero times" fails for loop sessions. -/
theorem c4_runloop_no_system_counterexample :
    countRole .system (runLoopMessages okLoopEnv defaultCfg plainSkill (fun _ => "n") 1 "hi") = 0 ∧
    (runLoopMessages okLoopEnv defaultCfg plainSkill (fun _ => "n") 1 "hi").length = 2 := by
  refine ⟨by decide, by decide⟩

/-- C4 (amended).  executeSkillWithTools (the single-shot run path)
appends exactly one system message per call, at the position where the
history ended (the head of a fresh agent's history), and that message
carries the skill body and the skill root path; RunLoop, by contrast,
drives its rounds through continueSkillWithTools directly and never
appends a system message, so a loop session's history gains none. -/
theorem c4_system_message (env : LoopEnv) (cfg : RunnerConfig)
    (skill : SkillPackage) (prompt : String) (msgs0 : List ChatMessage)
    (stdin : Nat → String) (fuel : Nat)
    (hwf : ∀ (msgs : List ChatMessage) (tools : List Tool) (m : ChatMessage),
      env.llm msgs tools = .ok m → m.role = .assistant) :
    countRole .system (executeSkillWithTools env cfg skill prompt msgs0).messages
      = countRole .system msgs0 + 1 ∧
    (executeSkillWithTools env cfg skill prompt msgs0).messages[msgs0.length]?
      = some { role := .system, content := skillSystemContent skill } ∧
    stringsContains (skillSystemContent skill) skill.body = true ∧
    stringsContains (skillSystemContent skill) skill.path = true ∧
    countRole .system (runLoopMessages env cfg skill stdin fuel prompt) = 0 := by
  refine ⟨?_, ?_, ?_, ?_, ?_⟩
  · rw [executeSkillWithTools, continueSkill_system_count env cfg skill prompt _ hwf]
    rw [countRole, List.countP_append]
    rfl
  · rw [executeSkillWithTools]
    have hred : (continueSkillWithTools env cfg skill prompt
        (msgs0 ++ [{ role := .system, content := skillSystemContent skill }])).messages
        = (toolLoop env cfg (GenerateToolDefinitions skill).2 skill.path
            (mergedAvailableTools skill (if env.mcpPresent then some env.mcpGetTools else none)) 20
            ((msgs0 ++ [{ role := .system, content := skillSystemContent skill }])
              ++ [{ role := .user, content := prompt }]) 0 0 []).messages := rfl
    obtain ⟨tail, htail⟩ := toolLoop_messages_ext env cfg (GenerateToolDefinitions skill).2
      skill.path (mergedAvailableTools skill (if env.mcpPresent then some env.mcpGetTools else none))
      20 ((msgs0 ++ [{ role := .system, content := skillSystemContent skill }])
          ++ [{ role := .user, content := prompt }]) 0 0 []
    rw [hred, htail]
    rw [List.append_assoc, List.append_assoc]
    rw [List.getElem?_append_right (le_refl msgs0.length)]
    simp
  · rw [stringsContains_iff]
    refine ⟨[], ?_, ?_⟩
    · exact ("\n\n##如果SKILL中没有要调用脚本的必要，则不要调用Tool,尤其是run_shell_script工具，直接根据SKILL的描述直接生成答案。\n\n ## SKILL CONTEXT\n"
        ++ "Skill Root Path: " ++ skill.path ++ "\n").data
    · simp [skillSystemContent, String.data_append, List.append_assoc]
  · rw [stringsContains_iff]
    refine ⟨(skill.body
      ++ "\n\n##如果SKILL中没有要调用脚本的必要，则不要调用Tool,尤其是run_shell_script工具，直接根据SKILL的描述直接生成答案。\n\n ## SKILL CONTEXT\n"
      ++ "Skill Root Path: ").data, "\n".data, ?_⟩
    simp [skillSystemContent, String.data_append, List.append_assoc]
  · exact runLoopRounds_system_count env cfg skill stdin hwf fuel prompt [] 0

/-- C4 witness: the trivial model environment satisfies the
assistant-role condition; a single-shot run on a fresh agent yields a
history with exactly one system message. -/
theorem c4_system_message_witness :
    (∀ (msgs : List ChatMessage) (tools : List Tool) (m : ChatMessage),
      okLoopEnv.llm msgs tools = .ok m → m.role = .assistant) ∧
    countRole .system (executeSkillWithTools okLoopEnv defaultCfg plainSkill "hi" []).messages
      = countRole .system ([] : List ChatMessage) + 1 :=
  ⟨fun msgs tools m h => by cases h; rfl,
   (c4_system_message okLoopEnv defaultCfg plainSkill "hi" [] (fun _ => "n") 1
     (fun msgs tools m h => by cases h; rfl)).1⟩

end GoSkills

namespace GoSkills

/-! ## Claims -/

/-- C1.  The claimed catalog invariant fails on the code, at a fully
concrete input: for a skill with no allowed-tools restriction and no
scripts, the merged catalog assembled by continueSkillWithTools lists
every base tool twice (GenerateToolDefinitions already contains the
base tools and runner.go appends GetBaseTools again), so the names are
not pairwise unique; moreover duckduckgo_search is in the catalog but
executeToolCall has no case for it and dispatching it falls through to
the unknown-tool error. -/
theorem c1_catalog_invariant_fails :
    (toolNames (mergedAvailableTools plainSkill none)).count "read_file" = 2 ∧
    ¬ (toolNames (mergedAvailableTools plainSkill none)).Nodup ∧
    "duckduckgo_search" ∈ toolNames (mergedAvailableTools plainSkill none) ∧
    executeToolCall okToolEnv ddgToolCall (GenerateToolDefinitions plainSkill).2 plainSkill.path
      = .error "unknown tool: duckduckgo_search" := by
  refine ⟨by decide, by decide, by decide, by rfl⟩

/-- C3.  GenerateToolDefinitions alone produces exactly the catalog the
claim describes for the S4 skill (the two allowed base tools plus
run_deploy_sh, in order), but the merged catalog that
continueSkillWithTools actually passes to the model re-appends all six
base tools, yielding nine entries instead of three, with read_file and
write_file duplicated and the disallowed base tools present. -/
theorem c3_allowed_tools_filter_defeated :
    toolNames (GenerateToolDefinitions s4Skill).1
      = ["read_file", "write_file", "run_deploy_sh"] ∧
    toolNames (mergedAvailableTools s4Skill none)
      = ["read_file", "write_file", "run_deploy_sh",
         "run_shell_script", "run_python_script", "read_file", "write_file",
         "duckduckgo_search", "wikipedia_search"] ∧
    (toolNames (mergedAvailableTools s4Skill none)).length = 9 ∧
    (GenerateToolDefinitions s4Skill).2 = [("run_deploy_sh", "/t/s/deploy.sh")] := by
  refine ⟨by decide, by decide, by decide, by decide⟩

end GoSkills
